import Mathlib

/-!
Shallow embedding of `ignite_travel/sdk/client.py` (DimsInventoryClient):
construction, request validation, and response parsing for the four
operations (room list, availability retrieval, inventory update, bookings).

Python exceptions are modelled with `Except String`: the string is the
exception class or message raised.  XML documents are modelled as element
trees; `find` is first-direct-child lookup and `findall(".//T")` is the
document-order list of all proper descendants with tag `T`, as in
`xml.etree.ElementTree`.
-/

/-- The ten decimal digit characters. -/
def decimalDigits : List Char := ['0', '1', '2', '3', '4', '5', '6', '7', '8', '9']

/-- Digit character for `n % 10`. -/
def digitCharOf (n : Nat) : Char := decimalDigits.getD (n % 10) '0'

/-- Digit-emitting loop of decimal rendering, structurally recursive on
a fuel bound (any fuel ≥ the digit count of `n` gives the digits of `n`,
most significant first). -/
def natToCharsAux : Nat → Nat → List Char
  | 0, _ => []
  | fuel + 1, n =>
    if n < 10 then [digitCharOf n]
    else natToCharsAux fuel (n / 10) ++ [digitCharOf (n % 10)]

/-- Decimal digit characters of `n`, most significant first
(rendering used by Python `str` on integers). -/
def natToChars (n : Nat) : List Char :=
  natToCharsAux (n + 1) n

/-- Left-pad a character list with '0' up to width `k`
(Python zero-padded rendering of date components). -/
def padZero (k : Nat) (l : List Char) : List Char :=
  List.replicate (k - l.length) '0' ++ l

/-- Numeric value of a list of decimal digit characters. -/
def digitsToNat (l : List Char) : Nat :=
  l.foldl (fun acc c => acc * 10 + (c.toNat - 48)) 0

/-- Split a character list on the '-' character
(the separator of both date formats accepted by the client). -/
def splitDash : List Char → List (List Char)
  | [] => [[]]
  | c :: rest =>
    if c = '-' then [] :: splitDash rest
    else
      match splitDash rest with
      | [] => [[c]]
      | p :: ps => (c :: p) :: ps

/-- A calendar date, as Python `datetime.date`: compared
lexicographically on (year, month, day). -/
structure PyDate where
  year : Nat
  month : Nat
  day : Nat
deriving DecidableEq, Repr

/-- Python `date` ordering: lexicographic on (year, month, day). -/
def PyDate.le (a b : PyDate) : Bool :=
  a.year < b.year ∨ (a.year = b.year ∧
    (a.month < b.month ∨ (a.month = b.month ∧ a.day ≤ b.day)))

/-- Strict version of `PyDate.le`. -/
def PyDate.lt (a b : PyDate) : Bool :=
  a.year < b.year ∨ (a.year = b.year ∧
    (a.month < b.month ∨ (a.month = b.month ∧ a.day < b.day)))

/-- Gregorian leap-year rule used by Python's `datetime`. -/
def isLeap (y : Nat) : Bool :=
  y % 4 = 0 ∧ (y % 100 ≠ 0 ∨ y % 400 = 0)

/-- Days in a month, as validated by Python's `datetime` constructor. -/
def daysInMonth (y m : Nat) : Nat :=
  if m = 2 then (if isLeap y then 29 else 28)
  else if m = 4 ∨ m = 6 ∨ m = 9 ∨ m = 11 then 30
  else 31

/-- A year/month/day component triple is a valid Python date
(year within `datetime`'s range, day within the month). -/
def validDate (y m d : Nat) : Bool :=
  1 ≤ y ∧ y ≤ 9999 ∧ 1 ≤ m ∧ m ≤ 12 ∧ 1 ≤ d ∧ d ≤ daysInMonth y m

/-- `datetime.strptime(s, "%d-%m-%Y").date()`: day (1-2 digits), month
(1-2 digits), year (exactly 4 digits), dash-separated; the constructed
date must be a real calendar date, else `ValueError`. -/
def parseDMY (s : String) : Option PyDate :=
  match splitDash s.toList with
  | [ds, ms, ys] =>
    if ds.all Char.isDigit ∧ ms.all Char.isDigit ∧ ys.all Char.isDigit ∧
       1 ≤ ds.length ∧ ds.length ≤ 2 ∧ 1 ≤ ms.length ∧ ms.length ≤ 2 ∧
       ys.length = 4 then
      let d := digitsToNat ds
      let m := digitsToNat ms
      let y := digitsToNat ys
      if validDate y m d then some ⟨y, m, d⟩ else none
    else none
  | _ => none

/-- `datetime.strptime(s, "%Y-%m-%d").date()`: year (exactly 4 digits),
month (1-2 digits), day (1-2 digits), dash-separated; the constructed
date must be a real calendar date, else `ValueError`. -/
def parseYMD (s : String) : Option PyDate :=
  match splitDash s.toList with
  | [ys, ms, ds] =>
    if ys.all Char.isDigit ∧ ms.all Char.isDigit ∧ ds.all Char.isDigit ∧
       ys.length = 4 ∧ 1 ≤ ms.length ∧ ms.length ≤ 2 ∧
       1 ≤ ds.length ∧ ds.length ≤ 2 then
      let y := digitsToNat ys
      let m := digitsToNat ms
      let d := digitsToNat ds
      if validDate y m d then some ⟨y, m, d⟩ else none
    else none
  | _ => none

/-- Python `str(date)`: ISO form `YYYY-MM-DD`, zero padded. -/
def dateIso (d : PyDate) : String :=
  String.mk (padZero 4 (natToChars d.year) ++ '-' ::
    (padZero 2 (natToChars d.month) ++ '-' :: padZero 2 (natToChars d.day)))

/-- Python `int(s)` on a string: optional sign followed by a nonempty
run of decimal digits (canonical integer literals). -/
def pyInt (s : String) : Option Int :=
  match s.toList with
  | '-' :: rest =>
    if rest ≠ [] ∧ rest.all Char.isDigit then some (-(digitsToNat rest : Int)) else none
  | '+' :: rest =>
    if rest ≠ [] ∧ rest.all Char.isDigit then some (digitsToNat rest : Int) else none
  | l =>
    if l ≠ [] ∧ l.all Char.isDigit then some (digitsToNat l : Int) else none

/-- Python `int(x)` where `x` is the `.text` of an element: `int(None)`
raises `TypeError`, a non-integer string raises `ValueError`. -/
def pyIntText : Option String → Except String Int
  | none => .error "TypeError"
  | some s =>
    match pyInt s with
    | none => .error "ValueError"
    | some i => .ok i

/-- An XML element as seen through `xml.etree.ElementTree`: a tag, the
optional text content, and the list of child elements in document order. -/
structure XmlElem where
  tag : String
  text : Option String
  children : List XmlElem

mutual

/-- All elements of the subtree rooted at `e` in document (preorder) order. -/
def XmlElem.preorder : XmlElem → List XmlElem
  | ⟨t, x, cs⟩ => ⟨t, x, cs⟩ :: preorderList cs

/-- Preorder traversal of a forest of subtrees. -/
def preorderList : List XmlElem → List XmlElem
  | [] => []
  | c :: cs => c.preorder ++ preorderList cs

end

/-- `root.findall(".//t")`: every proper descendant of `root` whose tag
is `t`, in document order. -/
def findallDesc (root : XmlElem) (t : String) : List XmlElem :=
  (preorderList root.children).filter (fun e => e.tag = t)

/-- `e.find("t")` with a plain tag: the first direct child tagged `t`. -/
def findChild (e : XmlElem) (t : String) : Option XmlElem :=
  e.children.find? (fun c => c.tag = t)

/-- `root.find(".//t")`: the first proper descendant tagged `t` in
document order. -/
def findDesc (root : XmlElem) (t : String) : Option XmlElem :=
  (findallDesc root t).head?

/-- Modelled from the spec: the `LinkedRate` entity of the missing
`ignite_travel.sdk.entities` module — an integer rate identifier, a
textual description, and the referenced room identifier (foreign key). -/
structure LinkedRate where
  rate_id : Int
  rate_description : Option String
  room_id : Int
deriving DecidableEq, Repr

/-- Modelled from the spec: the `Room` entity of the missing
`ignite_travel.sdk.entities` module — an integer room identifier, a
display name, and an optional linked-rate slot (filled during parsing). -/
structure Room where
  room_id : Int
  room_name : Option String
  linked_rate : Option LinkedRate := none
deriving DecidableEq, Repr

/-- Modelled from the spec: the `RoomList` entity of the missing
`ignite_travel.sdk.entities` module — an ordered sequence of rooms. -/
structure RoomList where
  rooms : List Room
deriving DecidableEq, Repr

/-- Modelled from the spec: the `Availability` entity of the missing
`ignite_travel.sdk.entities` module — a date plus the available and
literal inventory counts. -/
structure Availability where
  inventory_available : Int
  literal_inventory : Int
  dtm : PyDate
deriving DecidableEq, Repr

/-- Modelled from the spec: a booking record; `get_bookings` never
constructs one, so its fields are irrelevant to every claim. -/
structure Booking where
deriving DecidableEq, Repr

/-- The credential triple held by a constructed `DimsInventoryClient`
(values exactly as fetched from the environment). -/
structure DimsInventoryClient where
  username : Option String
  password : Option String
  token : Option String
deriving DecidableEq, Repr

/-- Python truthiness of an `os.getenv` result: `None` and the empty
string are falsy. -/
def truthyStr : Option String → Bool
  | none => false
  | some s => s ≠ ""

/-- `DimsInventoryClient.__init__`: read the three credentials from the
environment; raise `ValueError` unless all three are truthy. -/
def clientInit (username password token : Option String) :
    Except String DimsInventoryClient :=
  if truthyStr username ∧ truthyStr password ∧ truthyStr token then
    .ok ⟨username, password, token⟩
  else
    .error "Username, password and token must be set in the environment variables."

/-- A Python `for` loop that builds a list, one parsed record per
element, where an uncaught exception in an iteration aborts the whole
call: results in input order, first error wins. -/
def mapExcept {α β : Type} (f : α → Except String β) : List α → Except String (List β)
  | [] => .ok []
  | a :: t =>
    match f a with
    | .error msg => .error msg
    | .ok b =>
      match mapExcept f t with
      | .error msg => .error msg
      | .ok r => .ok (b :: r)

/-- A Python `for` loop that threads a state through each iteration,
where an uncaught exception aborts the whole call. -/
def foldlExcept {α β : Type} (f : β → α → Except String β) : β → List α → Except String β
  | b, [] => .ok b
  | b, a :: t =>
    match f b a with
    | .error msg => .error msg
    | .ok b2 => foldlExcept f b2 t

/-- One iteration of the `for room in root.findall(".//Room")` loop of
`get_roomlist`: read `RoomTypeId` and `Description` (attribute access on
a missing child raises `AttributeError`), then build
`Room(room_id=int(room_id), room_name=description)`. -/
def parseRoom (e : XmlElem) : Except String Room :=
  match findChild e "RoomTypeId" with
  | none => .error "AttributeError"
  | some idEl =>
    match findChild e "Description" with
    | none => .error "AttributeError"
    | some descEl =>
      match pyIntText idEl.text with
      | .error msg => .error msg
      | .ok rid => .ok { room_id := rid, room_name := descEl.text }

/-- The guard of the linked-rate loop: a linked-rate element missing any
of `RateId`, `RoomId`, `RateDescription` is skipped with `continue`. -/
def linkedRateDeficient (e : XmlElem) : Bool :=
  (findChild e "RateId").isNone ∨ (findChild e "RoomId").isNone ∨
    (findChild e "RateDescription").isNone

/-- `room_model.linked_rate = linked_rate_model` applied to the first
room in the list whose `room_id` matches (Python's
`next((r for r in rooms if r.room_id == int(room_id)), None)` followed
by in-place mutation); no matching room leaves the list unchanged. -/
def attachFirst (rooms : List Room) (rid : Int) (lr : LinkedRate) : List Room :=
  match rooms with
  | [] => []
  | r :: rest =>
    if r.room_id = rid then { r with linked_rate := some lr } :: rest
    else r :: attachFirst rest rid lr

/-- One iteration of the `for linked_rate in root.findall(".//LinkedRate")`
loop of `get_roomlist`: skip deficient elements, otherwise build the
`LinkedRate` (its `int(...)` conversions can raise) and attach it to the
first matching room. -/
def applyLinkedRate (rooms : List Room) (e : XmlElem) :
    Except String (List Room) :=
  if linkedRateDeficient e then .ok rooms
  else
    match findChild e "RateId", findChild e "RateDescription", findChild e "RoomId" with
    | some rateEl, some descEl, some roomEl =>
      match pyIntText rateEl.text with
      | .error msg => .error msg
      | .ok rateId =>
        match pyIntText roomEl.text with
        | .error msg => .error msg
        | .ok roomId =>
          .ok (attachFirst rooms roomId ⟨rateId, descEl.text, roomId⟩)
    | _, _, _ => .ok rooms

/-- Response-parsing phase of `get_roomlist`: build a `Room` per
`.//Room` element in document order, then run the linked-rate loop over
every `.//LinkedRate` element. -/
def getRoomlistParse (root : XmlElem) : Except String RoomList :=
  match mapExcept parseRoom (findallDesc root "Room") with
  | .error msg => .error msg
  | .ok rooms =>
    match foldlExcept applyLinkedRate rooms (findallDesc root "LinkedRate") with
    | .error msg => .error msg
    | .ok rooms2 => .ok ⟨rooms2⟩

/-- Validation phase of `retrieve_availability`, in source order: integer
parse of resort id then room id (one `try`, one error message), date
parse of start then end (one `try`, one error message), then the range
check and the two future checks; `today` is `datetime.now().date()` at
call time. -/
def retrieveAvailabilityValidate (resort_id room_id start_date end_date : String)
    (today : PyDate) : Except String (Int × Int × PyDate × PyDate) :=
  match pyInt resort_id with
  | none => .error "Resort ID and Room ID must be integers"
  | some rid =>
    match pyInt room_id with
    | none => .error "Resort ID and Room ID must be integers"
    | some mid =>
      match parseYMD start_date with
      | none => .error "Invalid date format"
      | some sd =>
        match parseYMD end_date with
        | none => .error "Invalid date format"
        | some ed =>
          if PyDate.lt ed sd then .error "Start date must be before end date"
          else if PyDate.lt sd today then .error "Start date must be in the future"
          else if PyDate.lt ed today then .error "End date must be in the future"
          else .ok (rid, mid, sd, ed)

/-- One iteration of the `for dateset in root.findall(".//DateSet")` loop
of `retrieve_availability`: read the three child texts (missing child:
`AttributeError`), parse the date with `%d-%m-%Y`, then the two `int(...)`
conversions inside the `Availability(...)` construction. -/
def parseDateSet (e : XmlElem) : Except String Availability :=
  match findChild e "InventoryAvailable" with
  | none => .error "AttributeError"
  | some iaEl =>
    match findChild e "LiteralInventory" with
    | none => .error "AttributeError"
    | some liEl =>
      match findChild e "Date" with
      | none => .error "AttributeError"
      | some dEl =>
        match dEl.text with
        | none => .error "TypeError"
        | some dt =>
          match parseDMY dt with
          | none => .error "ValueError"
          | some dtm =>
            match pyIntText iaEl.text with
            | .error msg => .error msg
            | .ok ia =>
              match pyIntText liEl.text with
              | .error msg => .error msg
              | .ok li => .ok ⟨ia, li, dtm⟩

/-- The key of `availability.sort(key=lambda x: x.dtm)` as a boolean
comparison on records. -/
def availLe (a b : Availability) : Bool := PyDate.le a.dtm b.dtm

/-- Response-parsing phase of `retrieve_availability`: parse every
`.//DateSet` element, then sort ascending by `dtm` (Python `list.sort`
is stable; `mergeSort` is its stable counterpart here). -/
def retrieveAvailabilityParse (root : XmlElem) : Except String (List Availability) :=
  match mapExcept parseDateSet (findallDesc root "DateSet") with
  | .error msg => .error msg
  | .ok l => .ok (l.mergeSort availLe)

/-- Whole `retrieve_availability` call with the network modelled as the
response document it would return: validation runs first and its error
preempts everything else. -/
def retrieveAvailability (resort_id room_id start_date end_date : String)
    (today : PyDate) (response : XmlElem) : Except String (List Availability) :=
  match retrieveAvailabilityValidate resort_id room_id start_date end_date today with
  | .error msg => .error msg
  | .ok _ => retrieveAvailabilityParse response

/-- Validation phase of `update_availability`: integer parse of room id,
resort id and quantity (one `try`, one message), then the `%d-%m-%Y`
date parse. -/
def updateAvailabilityValidate (room_id resort_id qty date : String) :
    Except String (Int × Int × Int × PyDate) :=
  match pyInt room_id with
  | none => .error "Room ID, Resort ID and Quantity must be integers"
  | some rid =>
    match pyInt resort_id with
    | none => .error "Room ID, Resort ID and Quantity must be integers"
    | some sid =>
      match pyInt qty with
      | none => .error "Room ID, Resort ID and Quantity must be integers"
      | some q =>
        match parseDMY date with
        | none => .error "Invalid date format"
        | some d => .ok (rid, sid, q, d)

/-- The text placed into the `<Date>` element of the `update_availability`
request body: the f-string interpolates the parsed `datetime.date`, whose
`str` is the ISO `YYYY-MM-DD` form. -/
def updateAvailabilityRequestDate (room_id resort_id qty date : String) :
    Except String String :=
  match updateAvailabilityValidate room_id resort_id qty date with
  | .error msg => .error msg
  | .ok (_, _, _, d) => .ok (dateIso d)

/-- Response-parsing phase of `get_bookings`: read the `.//MessageType`
and `.//Message` texts (in that source order, attribute access on a
missing element raises `AttributeError`), return `[]` when the message
type equals `"Error"`, and otherwise fall off the end of the function
body, which in Python returns `None`. -/
def getBookingsParse (root : XmlElem) : Except String (Option (List Booking)) :=
  match findDesc root "MessageType" with
  | none => .error "AttributeError"
  | some mtEl =>
    match findDesc root "Message" with
    | none => .error "AttributeError"
    | some _ =>
      if mtEl.text = some "Error" then .ok (some []) else .ok none

theorem truthyStr_true_iff (o : Option String) :
    truthyStr o = true ↔ o ≠ none ∧ o ≠ some "" := by
  cases o with
  | none => simp [truthyStr]
  | some s => simp [truthyStr]

theorem pyDate_lt_true_iff (a b : PyDate) :
    PyDate.lt a b = true ↔ ¬ (PyDate.le b a = true) := by
  simp [PyDate.lt, PyDate.le]
  omega

/-- C7: client construction fails with the configuration error when any
of username, password or token is missing (`None`) or empty, and
succeeds — holding exactly the three credentials — when all three are
present and non-empty. -/
theorem clientInit_requires_credentials (u p t : Option String) :
    ((u = none ∨ u = some "" ∨ p = none ∨ p = some "" ∨ t = none ∨ t = some "") →
      clientInit u p t =
        .error "Username, password and token must be set in the environment variables.") ∧
    ((u ≠ none ∧ u ≠ some "" ∧ p ≠ none ∧ p ≠ some "" ∧ t ≠ none ∧ t ≠ some "") →
      clientInit u p t = .ok ⟨u, p, t⟩) := by
  constructor
  · intro hbad
    unfold clientInit
    split
    · rename_i h
      obtain ⟨hu, hp, ht⟩ := h
      rw [truthyStr_true_iff] at hu hp ht
      tauto
    · rfl
  · intro hgood
    unfold clientInit
    split
    · rfl
    · rename_i h
      exact absurd ⟨(truthyStr_true_iff u).mpr ⟨hgood.1, hgood.2.1⟩,
        (truthyStr_true_iff p).mpr ⟨hgood.2.2.1, hgood.2.2.2.1⟩,
        (truthyStr_true_iff t).mpr ⟨hgood.2.2.2.2.1, hgood.2.2.2.2.2⟩⟩ h

/-- Witness for C7: construction succeeds on ("u", "p", "t") and fails
when the username is absent. -/
theorem clientInit_requires_credentials_witness :
    clientInit (some "u") (some "p") (some "t") = .ok ⟨some "u", some "p", some "t"⟩ ∧
    clientInit none (some "p") (some "t") =
      .error "Username, password and token must be set in the environment variables." :=
  ⟨(clientInit_requires_credentials (some "u") (some "p") (some "t")).2
      (by simp),
   (clientInit_requires_credentials none (some "p") (some "t")).1 (by simp)⟩

/-- C1: `retrieve_availability` validates before any network activity in
a fixed order — integer parse of the ids first, then date parse, then
the range/future checks — raising the first failing check's error and
running no later check; it rejects a start date after the end date,
rejects a start or end date strictly earlier than the current date, and
accepts dates exactly equal to the current date (the success
characterization below). -/
theorem retrieveAvailability_validation_order
    (resort room s e : String) (today : PyDate) (response : XmlElem) :
    ((pyInt resort = none ∨ pyInt room = none) →
      retrieveAvailabilityValidate resort room s e today =
        .error "Resort ID and Room ID must be integers") ∧
    (∀ rid mid, pyInt resort = some rid → pyInt room = some mid →
      (parseYMD s = none ∨ parseYMD e = none) →
      retrieveAvailabilityValidate resort room s e today =
        .error "Invalid date format") ∧
    (∀ rid mid sd ed, pyInt resort = some rid → pyInt room = some mid →
      parseYMD s = some sd → parseYMD e = some ed →
      PyDate.lt ed sd = true →
      retrieveAvailabilityValidate resort room s e today =
        .error "Start date must be before end date") ∧
    (∀ rid mid sd ed, pyInt resort = some rid → pyInt room = some mid →
      parseYMD s = some sd → parseYMD e = some ed →
      PyDate.le sd ed = true → PyDate.lt sd today = true →
      retrieveAvailabilityValidate resort room s e today =
        .error "Start date must be in the future") ∧
    (∀ rid mid sd ed,
      retrieveAvailabilityValidate resort room s e today = .ok (rid, mid, sd, ed) ↔
        (pyInt resort = some rid ∧ pyInt room = some mid ∧
         parseYMD s = some sd ∧ parseYMD e = some ed ∧
         PyDate.le sd ed = true ∧ PyDate.le today sd = true ∧
         PyDate.le today ed = true)) ∧
    (∀ msg, retrieveAvailabilityValidate resort room s e today = .error msg →
      retrieveAvailability resort room s e today response = .error msg) := by
  refine ⟨?_, ?_, ?_, ?_, ?_, ?_⟩
  · rintro (h | h) <;> unfold retrieveAvailabilityValidate
    · rw [h]
    · cases hr : pyInt resort <;> rw [h]
  · rintro rid mid hr hm (h | h) <;>
      unfold retrieveAvailabilityValidate <;> rw [hr, hm]
    · rw [h]
    · cases hs : parseYMD s <;> rw [h]
  · intro rid mid sd ed hr hm hs he hlt
    unfold retrieveAvailabilityValidate
    simp only [hr, hm, hs, he]
    rw [if_pos hlt]
  · intro rid mid sd ed hr hm hs he hle hlt
    unfold retrieveAvailabilityValidate
    simp only [hr, hm, hs, he]
    rw [if_neg, if_pos hlt]
    rw [pyDate_lt_true_iff]
    simp [hle]
  · intro rid mid sd ed
    unfold retrieveAvailabilityValidate
    cases hr : pyInt resort with
    | none => simp [hr]
    | some r =>
      cases hm : pyInt room with
      | none => simp
      | some m =>
        cases hs : parseYMD s with
        | none => simp
        | some sd0 =>
          cases he : parseYMD e with
          | none => simp
          | some ed0 =>
            simp only [Option.some.injEq]
            by_cases h1 : PyDate.lt ed0 sd0 = true
            · rw [if_pos h1]
              rw [pyDate_lt_true_iff] at h1
              simp only [reduceCtorEq, false_iff, not_and]
              rintro rfl rfl rfl rfl
              intro hle
              exact absurd hle h1
            · rw [if_neg h1]
              rw [pyDate_lt_true_iff, not_not] at h1
              by_cases h2 : PyDate.lt sd0 today = true
              · rw [if_pos h2]
                rw [pyDate_lt_true_iff] at h2
                simp only [reduceCtorEq, false_iff, not_and]
                rintro rfl rfl rfl rfl _ hle
                exact absurd hle h2
              · rw [if_neg h2]
                rw [pyDate_lt_true_iff, not_not] at h2
                by_cases h3 : PyDate.lt ed0 today = true
                · rw [if_pos h3]
                  rw [pyDate_lt_true_iff] at h3
                  simp only [reduceCtorEq, false_iff, not_and]
                  rintro rfl rfl rfl rfl _ _ hle
                  exact absurd hle h3
                · rw [if_neg h3]
                  rw [pyDate_lt_true_iff, not_not] at h3
                  constructor
                  · intro h
                    injection h with h
                    rw [Prod.ext_iff, Prod.ext_iff, Prod.ext_iff] at h
                    obtain ⟨rfl, rfl, rfl, rfl⟩ := h
                    exact ⟨rfl, rfl, rfl, rfl, h1, h2, h3⟩
                  · rintro ⟨rfl, rfl, rfl, rfl, _, _, _⟩
                    rfl
  · intro msg h
    unfold retrieveAvailability
    rw [h]

/-- Witness for C1: start = end = today is accepted; start after end hits
the range error; a strictly past start date hits the future error; a
non-integer resort id hits the identifier error before the (absent)
network step. -/
theorem retrieveAvailability_validation_order_witness :
    retrieveAvailabilityValidate "7" "3" "2030-01-10" "2030-01-10" ⟨2030, 1, 10⟩ =
      .ok (7, 3, ⟨2030, 1, 10⟩, ⟨2030, 1, 10⟩) ∧
    retrieveAvailabilityValidate "7" "3" "2030-01-10" "2030-01-05" ⟨2020, 1, 1⟩ =
      .error "Start date must be before end date" ∧
    retrieveAvailabilityValidate "7" "3" "2020-01-01" "2030-01-05" ⟨2025, 6, 1⟩ =
      .error "Start date must be in the future" ∧
    retrieveAvailability "x" "3" "2030-01-10" "2030-01-10" ⟨2030, 1, 10⟩ ⟨"R", none, []⟩ =
      .error "Resort ID and Room ID must be integers" := by
  refine ⟨?_, ?_, ?_, ?_⟩
  · exact ((retrieveAvailability_validation_order "7" "3" "2030-01-10" "2030-01-10"
      ⟨2030, 1, 10⟩ ⟨"R", none, []⟩).2.2.2.2.1 7 3 ⟨2030, 1, 10⟩ ⟨2030, 1, 10⟩).mpr
      ⟨rfl, rfl, rfl, rfl, rfl, rfl, rfl⟩
  · exact (retrieveAvailability_validation_order "7" "3" "2030-01-10" "2030-01-05"
      ⟨2020, 1, 1⟩ ⟨"R", none, []⟩).2.2.1 7 3 ⟨2030, 1, 10⟩ ⟨2030, 1, 5⟩ rfl rfl rfl rfl rfl
  · exact (retrieveAvailability_validation_order "7" "3" "2020-01-01" "2030-01-05"
      ⟨2025, 6, 1⟩ ⟨"R", none, []⟩).2.2.2.1 7 3 ⟨2020, 1, 1⟩ ⟨2030, 1, 5⟩ rfl rfl rfl rfl rfl rfl
  · exact (retrieveAvailability_validation_order "x" "3" "2030-01-10" "2030-01-10"
      ⟨2030, 1, 10⟩ ⟨"R", none, []⟩).2.2.2.2.2 _
      ((retrieveAvailability_validation_order "x" "3" "2030-01-10" "2030-01-10"
        ⟨2030, 1, 10⟩ ⟨"R", none, []⟩).1 (Or.inl rfl))

/-- C2: a linked-rate element missing any of its three required fields
(RateId, RateDescription, RoomId) is skipped silently — processing it
returns the room list unchanged with no error, and the whole linked-rate
pass behaves as if the deficient elements were not in the document. -/
theorem linkedRate_missing_fields_skipped :
    (∀ (rooms : List Room) (e : XmlElem), linkedRateDeficient e = true →
      applyLinkedRate rooms e = .ok rooms) ∧
    (∀ (lrs : List XmlElem) (rooms : List Room),
      foldlExcept applyLinkedRate rooms lrs =
        foldlExcept applyLinkedRate rooms
          (lrs.filter (fun e => !linkedRateDeficient e))) := by
  have hskip : ∀ (rooms : List Room) (e : XmlElem), linkedRateDeficient e = true →
      applyLinkedRate rooms e = .ok rooms := by
    intro rooms e h
    unfold applyLinkedRate
    rw [if_pos h]
  refine ⟨hskip, ?_⟩
  intro lrs
  induction lrs with
  | nil => intro rooms; rfl
  | cons e t ih =>
    intro rooms
    by_cases hd : linkedRateDeficient e = true
    · rw [List.filter_cons_of_neg (by simp [hd])]
      simp only [foldlExcept, hskip rooms e hd]
      exact ih rooms
    · rw [List.filter_cons_of_pos (by simp [hd])]
      simp only [foldlExcept]
      cases applyLinkedRate rooms e with
      | error msg => rfl
      | ok b2 => exact ih b2

/-- Witness for C2: a linked-rate element carrying only a RateId is
skipped, leaving a one-room list untouched, also through the whole pass. -/
theorem linkedRate_missing_fields_skipped_witness :
    applyLinkedRate [⟨1, some "a", none⟩]
      ⟨"LinkedRate", none, [⟨"RateId", some "5", []⟩]⟩ = .ok [⟨1, some "a", none⟩] ∧
    foldlExcept applyLinkedRate [⟨1, some "a", none⟩]
      [⟨"LinkedRate", none, [⟨"RateId", some "5", []⟩]⟩] =
      foldlExcept applyLinkedRate [⟨1, some "a", none⟩] [] :=
  ⟨linkedRate_missing_fields_skipped.1 [⟨1, some "a", none⟩]
      ⟨"LinkedRate", none, [⟨"RateId", some "5", []⟩]⟩ rfl,
   linkedRate_missing_fields_skipped.2
      [⟨"LinkedRate", none, [⟨"RateId", some "5", []⟩]⟩] [⟨1, some "a", none⟩]⟩

/-- The fields of a room the linked-rate pass must leave unchanged. -/
def roomKey (r : Room) : Int × Option String := (r.room_id, r.room_name)

theorem attachFirst_map_roomKey (rooms : List Room) (rid : Int) (lr : LinkedRate) :
    (attachFirst rooms rid lr).map roomKey = rooms.map roomKey := by
  induction rooms with
  | nil => rfl
  | cons r t ih =>
    simp only [attachFirst]
    by_cases h : r.room_id = rid
    · rw [if_pos h]
      simp [roomKey]
    · rw [if_neg h]
      simp only [List.map_cons, ih]

theorem applyLinkedRate_ok_map_roomKey (rooms r2 : List Room) (e : XmlElem)
    (h : applyLinkedRate rooms e = .ok r2) :
    r2.map roomKey = rooms.map roomKey := by
  unfold applyLinkedRate at h
  split at h
  · injection h with h
    subst h
    rfl
  · split at h
    · split at h
      · exact absurd h (by simp)
      · split at h
        · exact absurd h (by simp)
        · injection h with h
          subst h
          exact attachFirst_map_roomKey _ _ _
    · injection h with h
      subst h
      rfl

theorem foldlExcept_applyLinkedRate_map_roomKey :
    ∀ (lrs : List XmlElem) (rooms r2 : List Room),
      foldlExcept applyLinkedRate rooms lrs = .ok r2 →
      r2.map roomKey = rooms.map roomKey := by
  intro lrs
  induction lrs with
  | nil =>
    intro rooms r2 h
    injection h with h
    subst h
    rfl
  | cons e t ih =>
    intro rooms r2 h
    simp only [foldlExcept] at h
    cases ha : applyLinkedRate rooms e with
    | error msg => simp [ha] at h
    | ok b2 =>
      simp only [ha] at h
      exact (ih b2 r2 h).trans (applyLinkedRate_ok_map_roomKey rooms b2 e ha)

theorem mapExcept_ok_length {α β : Type} (f : α → Except String β) :
    ∀ (l : List α) (r : List β), mapExcept f l = .ok r → r.length = l.length := by
  intro l
  induction l with
  | nil =>
    intro r h
    injection h with h
    subst h
    rfl
  | cons a t ih =>
    intro r h
    simp only [mapExcept] at h
    cases ha : f a with
    | error msg => simp [ha] at h
    | ok b =>
      simp only [ha] at h
      cases ht : mapExcept f t with
      | error msg => simp [ht] at h
      | ok rt =>
        simp only [ht] at h
        injection h with h
        subst h
        simp [ih rt ht]

theorem attachFirst_no_match (rooms : List Room) (rid : Int) (lr : LinkedRate)
    (h : ∀ r ∈ rooms, r.room_id ≠ rid) : attachFirst rooms rid lr = rooms := by
  induction rooms with
  | nil => rfl
  | cons r t ih =>
    simp only [attachFirst]
    rw [if_neg (h r (by simp))]
    rw [ih (fun r2 hr2 => h r2 (by simp [hr2]))]

/-- C6: the room order of the returned `RoomList` is the document order
of the room elements (the identifier/name sequence of the result equals
that of the per-element parse), the linked-rate pass never reorders,
removes, or renames a room, and a complete linked-rate element whose
referenced room id matches no parsed room is discarded without error and
leaves every room unchanged. -/
theorem roomlist_frame_and_document_order :
    (∀ (root : XmlElem) (rooms0 : List Room) (rl : RoomList),
      mapExcept parseRoom (findallDesc root "Room") = .ok rooms0 →
      getRoomlistParse root = .ok rl →
      rl.rooms.map roomKey = rooms0.map roomKey) ∧
    (∀ (rooms r2 : List Room) (lrs : List XmlElem),
      foldlExcept applyLinkedRate rooms lrs = .ok r2 →
      r2.map roomKey = rooms.map roomKey) ∧
    (∀ (rooms : List Room) (rid : Int) (lr : LinkedRate),
      (∀ r ∈ rooms, r.room_id ≠ rid) → attachFirst rooms rid lr = rooms) ∧
    (∀ (rooms : List Room) (e rateEl descEl roomEl : XmlElem) (ri rid : Int),
      findChild e "RateId" = some rateEl →
      findChild e "RateDescription" = some descEl →
      findChild e "RoomId" = some roomEl →
      pyIntText rateEl.text = .ok ri → pyIntText roomEl.text = .ok rid →
      (∀ r ∈ rooms, r.room_id ≠ rid) →
      applyLinkedRate rooms e = .ok rooms) := by
  refine ⟨?_, ?_, ?_, ?_⟩
  · intro root rooms0 rl h0 h
    unfold getRoomlistParse at h
    simp only [h0] at h
    cases hf : foldlExcept applyLinkedRate rooms0 (findallDesc root "LinkedRate") with
    | error msg => simp [hf] at h
    | ok rooms2 =>
      simp only [hf] at h
      injection h with h
      subst h
      exact foldlExcept_applyLinkedRate_map_roomKey _ rooms0 rooms2 hf
  · intro rooms r2 lrs h
    exact foldlExcept_applyLinkedRate_map_roomKey lrs rooms r2 h
  · exact attachFirst_no_match
  · intro rooms e rateEl descEl roomEl ri rid h1 h2 h3 h4 h5 h6
    unfold applyLinkedRate
    rw [if_neg (by simp [linkedRateDeficient, h1, h2, h3])]
    simp only [h1, h2, h3, h4, h5]
    rw [attachFirst_no_match rooms rid _ h6]

/-- A concrete room-list response: one room (id 1) and one complete
linked-rate element referencing the absent room id 99. -/
def c6Doc : XmlElem :=
  ⟨"Envelope", none,
    [⟨"Room", none, [⟨"RoomTypeId", some "1", []⟩, ⟨"Description", some "a", []⟩]⟩,
     ⟨"LinkedRate", none,
       [⟨"RateId", some "5", []⟩, ⟨"RateDescription", some "d", []⟩,
        ⟨"RoomId", some "99", []⟩]⟩]⟩

/-- Witness for C6: on `c6Doc`, the parse succeeds keeping the single
room as-is in document order, and the unmatched linked rate changes
nothing. -/
theorem roomlist_frame_and_document_order_witness :
    (RoomList.mk [⟨1, some "a", none⟩]).rooms.map roomKey =
      [(⟨1, some "a", none⟩ : Room)].map roomKey ∧
    applyLinkedRate [⟨1, some "a", none⟩]
      ⟨"LinkedRate", none,
        [⟨"RateId", some "5", []⟩, ⟨"RateDescription", some "d", []⟩,
         ⟨"RoomId", some "99", []⟩]⟩ = .ok [⟨1, some "a", none⟩] :=
  ⟨roomlist_frame_and_document_order.1 c6Doc [⟨1, some "a", none⟩]
      ⟨[⟨1, some "a", none⟩]⟩ rfl rfl,
   roomlist_frame_and_document_order.2.2.2 [⟨1, some "a", none⟩] _ _ _ _ 5 99
      rfl rfl rfl rfl rfl (by simp)⟩

/-- A concrete room-list response containing two room elements that share
the room identifier 1. -/
def dupRoomsDoc : XmlElem :=
  ⟨"Envelope", none,
    [⟨"Room", none, [⟨"RoomTypeId", some "1", []⟩, ⟨"Description", some "a", []⟩]⟩,
     ⟨"Room", none, [⟨"RoomTypeId", some "1", []⟩, ⟨"Description", some "b", []⟩]⟩]⟩

/-- Counterexample to C9: on a document with two room elements sharing
room id 1, the parse succeeds and returns two entries with the same
room identifier — uniqueness is not enforced. -/
theorem roomlist_duplicate_ids_counterexample :
    getRoomlistParse dupRoomsDoc =
      .ok ⟨[⟨1, some "a", none⟩, ⟨1, some "b", none⟩]⟩ ∧
    ¬ ([(⟨1, some "a", none⟩ : Room), ⟨1, some "b", none⟩].Pairwise
        (fun r1 r2 => r1.room_id ≠ r2.room_id)) :=
  ⟨rfl, by simp⟩

/-- C9 as amended: the returned sequence has exactly one Room per room
element of the document (entries are never merged or dropped), but
room-id uniqueness is not enforced, so two room elements sharing an id
produce two entries. -/
theorem roomlist_one_room_per_element (root : XmlElem) (rl : RoomList)
    (h : getRoomlistParse root = .ok rl) :
    rl.rooms.length = (findallDesc root "Room").length := by
  unfold getRoomlistParse at h
  cases h0 : mapExcept parseRoom (findallDesc root "Room") with
  | error msg => simp [h0] at h
  | ok rooms0 =>
    simp only [h0] at h
    cases hf : foldlExcept applyLinkedRate rooms0 (findallDesc root "LinkedRate") with
    | error msg => simp [hf] at h
    | ok rooms2 =>
      simp only [hf] at h
      injection h with h
      subst h
      have hmap := foldlExcept_applyLinkedRate_map_roomKey _ rooms0 rooms2 hf
      have hlen : rooms2.length = rooms0.length := by
        have := congrArg List.length hmap
        simpa using this
      simp only [hlen]
      exact mapExcept_ok_length parseRoom _ rooms0 h0

/-- Witness for C9's amended theorem: on the duplicate-id document the
result has exactly as many rooms as there are room elements (two). -/
theorem roomlist_one_room_per_element_witness :
    (RoomList.mk [⟨1, some "a", none⟩, ⟨1, some "b", none⟩]).rooms.length =
      (findallDesc dupRoomsDoc "Room").length :=
  roomlist_one_room_per_element dupRoomsDoc
    ⟨[⟨1, some "a", none⟩, ⟨1, some "b", none⟩]⟩ rfl

/-- A bookings response whose message type is "Error" but which has no
Message element at all. -/
def errorNoMessageDoc : XmlElem :=
  ⟨"Envelope", none, [⟨"MessageType", some "Error", []⟩]⟩

/-- Counterexample to C4: the code reads `root.find(".//Message").text`
before the error check, so a response whose message-type indicator is
"Error" but which lacks a Message element raises `AttributeError`
instead of returning the empty collection. -/
theorem bookings_error_without_message_counterexample :
    findDesc errorNoMessageDoc "MessageType" =
      some ⟨"MessageType", some "Error", []⟩ ∧
    getBookingsParse errorNoMessageDoc = .error "AttributeError" :=
  ⟨rfl, rfl⟩

/-- C4 as amended: for every bookings response whose message-type
indicator equals "Error" and which contains a Message element, the
operation returns the empty collection immediately, without parsing
booking entries and without raising, regardless of the message text. -/
theorem bookings_error_returns_empty (root mtEl : XmlElem)
    (h1 : findDesc root "MessageType" = some mtEl)
    (h2 : mtEl.text = some "Error")
    (h3 : (findDesc root "Message").isSome = true) :
    getBookingsParse root = .ok (some []) := by
  unfold getBookingsParse
  simp only [h1]
  obtain ⟨msgEl, hm⟩ := Option.isSome_iff_exists.mp h3
  simp only [hm]
  rw [if_pos h2]

/-- A bookings response carrying both an "Error" message type and a
Message element. -/
def errorWithMessageDoc : XmlElem :=
  ⟨"Envelope", none,
    [⟨"MessageType", some "Error", []⟩, ⟨"Message", some "boom", []⟩]⟩

/-- Witness for C4's amended theorem. -/
theorem bookings_error_returns_empty_witness :
    getBookingsParse errorWithMessageDoc = .ok (some []) :=
  bookings_error_returns_empty errorWithMessageDoc
    ⟨"MessageType", some "Error", []⟩ rfl rfl rfl

/-- A bookings response whose message type is not "Error" and which has
no Message element. -/
def successNoMessageDoc : XmlElem :=
  ⟨"Envelope", none, [⟨"MessageType", some "Success", []⟩]⟩

/-- Counterexample to C5: with a non-"Error" message type but no Message
element, the unconditional `root.find(".//Message").text` read raises
`AttributeError`, so the call does not return None. -/
theorem bookings_success_without_message_counterexample :
    findDesc successNoMessageDoc "MessageType" =
      some ⟨"MessageType", some "Success", []⟩ ∧
    getBookingsParse successNoMessageDoc = .error "AttributeError" :=
  ⟨rfl, rfl⟩

/-- C5 as amended: for every bookings response that contains a Message
element and whose message-type indicator is not "Error", the function
body ends after the error check and returns None — booking entries are
never parsed and no collection of bookings is ever produced. -/
theorem bookings_non_error_returns_none (root mtEl : XmlElem)
    (h1 : findDesc root "MessageType" = some mtEl)
    (h2 : mtEl.text ≠ some "Error")
    (h3 : (findDesc root "Message").isSome = true) :
    getBookingsParse root = .ok none := by
  unfold getBookingsParse
  simp only [h1]
  obtain ⟨msgEl, hm⟩ := Option.isSome_iff_exists.mp h3
  simp only [hm]
  rw [if_neg h2]

/-- A bookings response carrying a non-"Error" message type and a
Message element. -/
def successWithMessageDoc : XmlElem :=
  ⟨"Envelope", none,
    [⟨"MessageType", some "Success", []⟩, ⟨"Message", some "ok", []⟩]⟩

/-- Witness for C5's amended theorem. -/
theorem bookings_non_error_returns_none_witness :
    getBookingsParse successWithMessageDoc = .ok none :=
  bookings_non_error_returns_none successWithMessageDoc
    ⟨"MessageType", some "Success", []⟩ rfl (by simp) rfl

theorem mapExcept_ok_mem {α β : Type} (f : α → Except String β) :
    ∀ (l : List α) (r : List β), mapExcept f l = .ok r →
      ∀ b ∈ r, ∃ a ∈ l, f a = .ok b := by
  intro l
  induction l with
  | nil =>
    intro r h b hb
    injection h with h
    subst h
    simp at hb
  | cons a t ih =>
    intro r h b hb
    simp only [mapExcept] at h
    cases ha : f a with
    | error msg => simp [ha] at h
    | ok b0 =>
      simp only [ha] at h
      cases ht : mapExcept f t with
      | error msg => simp [ht] at h
      | ok rt =>
        simp only [ht] at h
        injection h with h
        subst h
        rcases List.mem_cons.mp hb with hb | hb
        · exact ⟨a, by simp, by rw [ha, hb]⟩
        · obtain ⟨a2, ha2, hf2⟩ := ih rt ht b hb
          exact ⟨a2, by simp [ha2], hf2⟩

theorem parseDateSet_ok_counts (e : XmlElem) (a : Availability)
    (h : parseDateSet e = .ok a) :
    ∃ iaEl liEl, findChild e "InventoryAvailable" = some iaEl ∧
      findChild e "LiteralInventory" = some liEl ∧
      pyIntText iaEl.text = .ok a.inventory_available ∧
      pyIntText liEl.text = .ok a.literal_inventory := by
  unfold parseDateSet at h
  cases h1 : findChild e "InventoryAvailable" with
  | none => simp [h1] at h
  | some iaEl =>
    simp only [h1] at h
    cases h2 : findChild e "LiteralInventory" with
    | none => simp [h2] at h
    | some liEl =>
      simp only [h2] at h
      cases h3 : findChild e "Date" with
      | none => simp [h3] at h
      | some dEl =>
        simp only [h3] at h
        cases h4 : dEl.text with
        | none => simp [h4] at h
        | some dt =>
          simp only [h4] at h
          cases h5 : parseDMY dt with
          | none => simp [h5] at h
          | some dtm =>
            simp only [h5] at h
            cases h6 : pyIntText iaEl.text with
            | error msg => simp [h6] at h
            | ok ia =>
              simp only [h6] at h
              cases h7 : pyIntText liEl.text with
              | error msg => simp [h7] at h
              | ok li =>
                simp only [h7] at h
                injection h with h
                subst h
                exact ⟨iaEl, liEl, rfl, rfl, h6, h7⟩

/-- A concrete availability response whose inventory-available text is
the negative integer literal "-1". -/
def negCountDoc : XmlElem :=
  ⟨"Envelope", none,
    [⟨"DateSet", none,
      [⟨"InventoryAvailable", some "-1", []⟩, ⟨"LiteralInventory", some "2", []⟩,
       ⟨"Date", some "01-01-2024", []⟩]⟩]⟩

/-- Counterexample to C8: the parse applies Python `int` with no sign
check, so a document carrying "-1" yields an Availability record whose
available-inventory count is negative. -/
theorem availability_negative_count_counterexample :
    retrieveAvailabilityParse negCountDoc =
      .ok [⟨-1, 2, ⟨2024, 1, 1⟩⟩] ∧
    ((-1 : Int) < 0) := by
  constructor
  · unfold retrieveAvailabilityParse
    have h : mapExcept parseDateSet (findallDesc negCountDoc "DateSet") =
        .ok [⟨-1, 2, ⟨2024, 1, 1⟩⟩] := rfl
    simp only [h]
    rw [List.mergeSort_of_sorted (by simp)]
  · decide

/-- C8 as amended: each Availability record's counts are the integer
parse of the document's count texts, so they are non-negative exactly
when the document supplies non-negative integers; whenever every
date-entry's count texts parse to non-negative integers, every record of
the result has non-negative counts. -/
theorem availability_counts_follow_document (root : XmlElem)
    (res : List Availability)
    (h : retrieveAvailabilityParse root = .ok res)
    (hn : ∀ e ∈ findallDesc root "DateSet", ∀ (el : XmlElem) (t : String) (k : Int),
      (findChild e "InventoryAvailable" = some el ∨
       findChild e "LiteralInventory" = some el) →
      el.text = some t → pyInt t = some k → 0 ≤ k) :
    ∀ a ∈ res, 0 ≤ a.inventory_available ∧ 0 ≤ a.literal_inventory := by
  intro a ha
  unfold retrieveAvailabilityParse at h
  cases hm : mapExcept parseDateSet (findallDesc root "DateSet") with
  | error msg => simp [hm] at h
  | ok l =>
    simp only [hm] at h
    injection h with h
    subst h
    rw [List.mem_mergeSort] at ha
    obtain ⟨e, he, hfe⟩ := mapExcept_ok_mem parseDateSet _ l hm a ha
    obtain ⟨iaEl, liEl, h1, h2, h3, h4⟩ := parseDateSet_ok_counts e a hfe
    constructor
    · cases ht : iaEl.text with
      | none => rw [ht] at h3; simp [pyIntText] at h3
      | some t =>
        rw [ht] at h3
        cases hp : pyInt t with
        | none => simp [pyIntText, hp] at h3
        | some k =>
          have hk : k = a.inventory_available := by
            simp [pyIntText, hp] at h3
            exact h3
          exact hk ▸ hn e he iaEl t k (Or.inl h1) ht hp
    · cases ht : liEl.text with
      | none => rw [ht] at h4; simp [pyIntText] at h4
      | some t =>
        rw [ht] at h4
        cases hp : pyInt t with
        | none => simp [pyIntText, hp] at h4
        | some k =>
          have hk : k = a.literal_inventory := by
            simp [pyIntText, hp] at h4
            exact h4
          exact hk ▸ hn e he liEl t k (Or.inr h2) ht hp

/-- A concrete availability response with non-negative counts. -/
def nonnegCountDoc : XmlElem :=
  ⟨"Envelope", none,
    [⟨"DateSet", none,
      [⟨"InventoryAvailable", some "3", []⟩, ⟨"LiteralInventory", some "2", []⟩,
       ⟨"Date", some "01-01-2024", []⟩]⟩]⟩

/-- Witness for C8's amended theorem: a document with non-negative count
texts yields records with non-negative counts. -/
theorem availability_counts_follow_document_witness :
    0 ≤ (Availability.mk 3 2 ⟨2024, 1, 1⟩).inventory_available ∧
    0 ≤ (Availability.mk 3 2 ⟨2024, 1, 1⟩).literal_inventory := by
  have hparse : retrieveAvailabilityParse nonnegCountDoc =
      .ok [⟨3, 2, ⟨2024, 1, 1⟩⟩] := by
    unfold retrieveAvailabilityParse
    have h : mapExcept parseDateSet (findallDesc nonnegCountDoc "DateSet") =
        .ok [⟨3, 2, ⟨2024, 1, 1⟩⟩] := rfl
    simp only [h]
    rw [List.mergeSort_of_sorted (by simp)]
  refine availability_counts_follow_document nonnegCountDoc _ hparse
    ?_ ⟨3, 2, ⟨2024, 1, 1⟩⟩ (by simp)
  exact
    (by intro e he el t k hel ht hp
        have he2 : e = ⟨"DateSet", none,
          [⟨"InventoryAvailable", some "3", []⟩, ⟨"LiteralInventory", some "2", []⟩,
           ⟨"Date", some "01-01-2024", []⟩]⟩ := by
          simpa [findallDesc, preorderList, XmlElem.preorder, nonnegCountDoc] using he
        subst he2
        rcases hel with hel | hel <;>
          · injection hel with hel
            subst hel
            injection ht with ht
            subst ht
            injection hp.symm.trans (rfl : pyInt _ = pyInt _) with hk
            omega)

theorem availLe_trans (a b c : Availability) :
    availLe a b = true → availLe b c = true → availLe a c = true := by
  simp only [availLe, PyDate.le, decide_eq_true_eq]
  omega

theorem availLe_total (a b : Availability) :
    availLe a b || availLe b a := by
  simp only [availLe, PyDate.le, Bool.or_eq_true, decide_eq_true_eq]
  omega

theorem pyDate_le_antisymm (a b : PyDate) :
    PyDate.le a b = true → PyDate.le b a = true → a = b := by
  cases a
  cases b
  simp only [PyDate.le, PyDate.mk.injEq, decide_eq_true_eq]
  omega

theorem sorted_nodup_dtm_perm_eq :
    ∀ (l1 l2 : List Availability), l1.Perm l2 →
      l1.Pairwise (fun a b => availLe a b = true) →
      l2.Pairwise (fun a b => availLe a b = true) →
      (l1.map (fun a => a.dtm)).Nodup → l1 = l2 := by
  intro l1
  induction l1 with
  | nil =>
    intro l2 hp _ _ _
    exact List.Perm.nil_eq hp
  | cons a t ih =>
    intro l2 hp hs1 hs2 hnd
    cases l2 with
    | nil => simpa using hp.length_eq
    | cons b t2 =>
      have hab : a = b := by
        rcases List.mem_cons.mp (hp.mem_iff.mp (List.mem_cons_self a t)) with h | hat2
        · exact h
        · rcases List.mem_cons.mp (hp.symm.mem_iff.mp (List.mem_cons_self b t2)) with h | hbt
          · exact h.symm
          · have h1 : availLe a b = true := (List.pairwise_cons.mp hs1).1 b hbt
            have h2 : availLe b a = true := (List.pairwise_cons.mp hs2).1 a hat2
            have hdtm : a.dtm = b.dtm := by
              have := pyDate_le_antisymm a.dtm b.dtm (by simpa [availLe] using h1)
                (by simpa [availLe] using h2)
              exact this
            exfalso
            have : a.dtm ∈ t.map (fun a => a.dtm) :=
              List.mem_map.mpr ⟨b, hbt, hdtm.symm⟩
            exact (List.nodup_cons.mp hnd).1 this
      subst hab
      have hpt : t.Perm t2 := hp.cons_inv
      rw [ih t2 hpt (List.pairwise_cons.mp hs1).2 (List.pairwise_cons.mp hs2).2
        (List.nodup_cons.mp hnd).2]

theorem mapExcept_ok_perm {α β : Type} (f : α → Except String β) :
    ∀ (l1 l2 : List α), l1.Perm l2 → ∀ (r1 : List β), mapExcept f l1 = .ok r1 →
      ∃ r2, mapExcept f l2 = .ok r2 ∧ r1.Perm r2 := by
  intro l1 l2 hp
  induction hp with
  | nil =>
    intro r1 h
    exact ⟨r1, h, List.Perm.refl r1⟩
  | @cons x l1t l2t hp' ih =>
    intro r1 h
    simp only [mapExcept] at h ⊢
    cases hx : f x with
    | error m => simp [hx] at h
    | ok b =>
      simp only [hx] at h
      cases ht : mapExcept f l1t with
      | error m => rw [ht] at h; simp at h
      | ok rt =>
        rw [ht] at h
        injection h with h
        subst h
        obtain ⟨r2t, h2, hperm⟩ := ih rt ht
        exact ⟨b :: r2t, by simp only [h2], hperm.cons b⟩
  | swap x y l =>
    intro r1 h
    simp only [mapExcept] at h ⊢
    cases hy : f y with
    | error m => simp [hy] at h
    | ok by2 =>
      simp only [hy] at h ⊢
      cases hx : f x with
      | error m => simp [hx] at h
      | ok bx =>
        simp only [hx] at h ⊢
        cases hl : mapExcept f l with
        | error m => simp [hl] at h
        | ok rl =>
          simp only [hl] at h ⊢
          injection h with h
          subst h
          exact ⟨bx :: by2 :: rl, rfl, List.Perm.swap bx by2 rl⟩
  | trans hp1 hp2 ih1 ih2 =>
    intro r1 h
    obtain ⟨rm, hm, hperm1⟩ := ih1 r1 h
    obtain ⟨r2, h2, hperm2⟩ := ih2 rm hm
    exact ⟨r2, h2, hperm1.trans hperm2⟩

/-- A concrete date-entry element with the given inventory-available
text and date text. -/
def dateSetElem (c d : String) : XmlElem :=
  ⟨"DateSet", none,
    [⟨"InventoryAvailable", some c, []⟩, ⟨"LiteralInventory", some "0", []⟩,
     ⟨"Date", some d, []⟩]⟩

/-- Two availability responses whose date entries share one date but
differ in counts, in the two possible orders. -/
def dupDateDocA : XmlElem :=
  ⟨"Envelope", none, [dateSetElem "1" "01-01-2024", dateSetElem "2" "01-01-2024"]⟩

/-- The same two date entries as `dupDateDocA`, in the other order. -/
def dupDateDocB : XmlElem :=
  ⟨"Envelope", none, [dateSetElem "2" "01-01-2024", dateSetElem "1" "01-01-2024"]⟩

/-- Counterexample to C3's permutation invariance: the sort is stable and
keys only on the date, so two date entries sharing a date but differing
in counts come out in input order — permuting the document's entries
permutes the (still date-sorted) result. -/
theorem availability_permutation_counterexample :
    (findallDesc dupDateDocA "DateSet").Perm (findallDesc dupDateDocB "DateSet") ∧
    retrieveAvailabilityParse dupDateDocA =
      .ok [⟨1, 0, ⟨2024, 1, 1⟩⟩, ⟨2, 0, ⟨2024, 1, 1⟩⟩] ∧
    retrieveAvailabilityParse dupDateDocB =
      .ok [⟨2, 0, ⟨2024, 1, 1⟩⟩, ⟨1, 0, ⟨2024, 1, 1⟩⟩] ∧
    ([⟨1, 0, ⟨2024, 1, 1⟩⟩, ⟨2, 0, ⟨2024, 1, 1⟩⟩] : List Availability) ≠
      [⟨2, 0, ⟨2024, 1, 1⟩⟩, ⟨1, 0, ⟨2024, 1, 1⟩⟩] := by
  refine ⟨?_, ?_, ?_, by decide⟩
  · have hA : findallDesc dupDateDocA "DateSet" =
        [dateSetElem "1" "01-01-2024", dateSetElem "2" "01-01-2024"] := rfl
    have hB : findallDesc dupDateDocB "DateSet" =
        [dateSetElem "2" "01-01-2024", dateSetElem "1" "01-01-2024"] := rfl
    rw [hA, hB]
    exact List.Perm.swap (dateSetElem "2" "01-01-2024") (dateSetElem "1" "01-01-2024") []
  · unfold retrieveAvailabilityParse
    have h : mapExcept parseDateSet (findallDesc dupDateDocA "DateSet") =
        .ok [⟨1, 0, ⟨2024, 1, 1⟩⟩, ⟨2, 0, ⟨2024, 1, 1⟩⟩] := rfl
    simp only [h]
    rw [List.mergeSort_of_sorted (by simp [availLe, PyDate.le])]
  · unfold retrieveAvailabilityParse
    have h : mapExcept parseDateSet (findallDesc dupDateDocB "DateSet") =
        .ok [⟨2, 0, ⟨2024, 1, 1⟩⟩, ⟨1, 0, ⟨2024, 1, 1⟩⟩] := rfl
    simp only [h]
    rw [List.mergeSort_of_sorted (by simp [availLe, PyDate.le])]

/-- C3 as amended: the sequence returned by the availability parse is
always sorted non-decreasing by date regardless of the document's entry
order, and the result is invariant under permutation of the document's
date entries provided the entries' dates are pairwise distinct (with
duplicate dates the stable sort preserves the input order of the ties,
so results of permuted documents may differ in count order). -/
theorem availability_sorted_and_permutation_invariant :
    (∀ (root : XmlElem) (res : List Availability),
      retrieveAvailabilityParse root = .ok res →
      res.Pairwise (fun a b => availLe a b = true)) ∧
    (∀ (root1 root2 : XmlElem) (res1 res2 : List Availability),
      (findallDesc root1 "DateSet").Perm (findallDesc root2 "DateSet") →
      retrieveAvailabilityParse root1 = .ok res1 →
      retrieveAvailabilityParse root2 = .ok res2 →
      (res1.map (fun a => a.dtm)).Nodup →
      res1 = res2) := by
  have hsorted : ∀ (root : XmlElem) (res : List Availability),
      retrieveAvailabilityParse root = .ok res →
      res.Pairwise (fun a b => availLe a b = true) := by
    intro root res h
    unfold retrieveAvailabilityParse at h
    cases hm : mapExcept parseDateSet (findallDesc root "DateSet") with
    | error msg => simp [hm] at h
    | ok l =>
      simp only [hm] at h
      injection h with h
      subst h
      exact List.sorted_mergeSort availLe_trans availLe_total l
  refine ⟨hsorted, ?_⟩
  intro root1 root2 res1 res2 hperm h1 h2 hnd
  have hs1 := hsorted root1 res1 h1
  have hs2 := hsorted root2 res2 h2
  unfold retrieveAvailabilityParse at h1 h2
  cases hm1 : mapExcept parseDateSet (findallDesc root1 "DateSet") with
  | error msg => simp [hm1] at h1
  | ok l1 =>
    simp only [hm1] at h1
    injection h1 with h1
    cases hm2 : mapExcept parseDateSet (findallDesc root2 "DateSet") with
    | error msg => simp [hm2] at h2
    | ok l2 =>
      simp only [hm2] at h2
      injection h2 with h2
      obtain ⟨r2, hr2, hp12⟩ := mapExcept_ok_perm parseDateSet _ _ hperm l1 hm1
      have hr2l2 : r2 = l2 := by
        injection hr2.symm.trans hm2 with h
      rw [hr2l2] at hp12
      subst h1 h2
      exact sorted_nodup_dtm_perm_eq _ _
        (((List.mergeSort_perm l1 availLe).trans hp12).trans
          (List.mergeSort_perm l2 availLe).symm) hs1 hs2 hnd

/-- Two availability responses with distinct dates (5 March and 1 March
2024), in the two possible document orders. -/
def distinctDatesDocA : XmlElem :=
  ⟨"Envelope", none, [dateSetElem "1" "05-03-2024", dateSetElem "1" "01-03-2024"]⟩

/-- The same two date entries as `distinctDatesDocA`, in the other order. -/
def distinctDatesDocB : XmlElem :=
  ⟨"Envelope", none, [dateSetElem "1" "01-03-2024", dateSetElem "1" "05-03-2024"]⟩

/-- Witness for C3's amended theorem: with distinct dates, both document
orders parse to the same date-sorted sequence. -/
theorem availability_sorted_and_permutation_invariant_witness :
    ([⟨1, 0, ⟨2024, 3, 1⟩⟩, ⟨1, 0, ⟨2024, 3, 5⟩⟩] : List Availability).Pairwise
      (fun a b => availLe a b = true) ∧
    ([⟨1, 0, ⟨2024, 3, 1⟩⟩, ⟨1, 0, ⟨2024, 3, 5⟩⟩] : List Availability) =
      [⟨1, 0, ⟨2024, 3, 1⟩⟩, ⟨1, 0, ⟨2024, 3, 5⟩⟩] := by
  have hA : retrieveAvailabilityParse distinctDatesDocA =
      .ok [⟨1, 0, ⟨2024, 3, 1⟩⟩, ⟨1, 0, ⟨2024, 3, 5⟩⟩] := by
    unfold retrieveAvailabilityParse
    have h : mapExcept parseDateSet (findallDesc distinctDatesDocA "DateSet") =
        .ok [⟨1, 0, ⟨2024, 3, 5⟩⟩, ⟨1, 0, ⟨2024, 3, 1⟩⟩] := rfl
    simp only [h]
    simp [List.mergeSort, List.merge, availLe, PyDate.le]
  have hB : retrieveAvailabilityParse distinctDatesDocB =
      .ok [⟨1, 0, ⟨2024, 3, 1⟩⟩, ⟨1, 0, ⟨2024, 3, 5⟩⟩] := by
    unfold retrieveAvailabilityParse
    have h : mapExcept parseDateSet (findallDesc distinctDatesDocB "DateSet") =
        .ok [⟨1, 0, ⟨2024, 3, 1⟩⟩, ⟨1, 0, ⟨2024, 3, 5⟩⟩] := rfl
    simp only [h]
    simp [List.mergeSort, List.merge, availLe, PyDate.le]
  have hperm : (findallDesc distinctDatesDocA "DateSet").Perm
      (findallDesc distinctDatesDocB "DateSet") := by
    have h1 : findallDesc distinctDatesDocA "DateSet" =
        [dateSetElem "1" "05-03-2024", dateSetElem "1" "01-03-2024"] := rfl
    have h2 : findallDesc distinctDatesDocB "DateSet" =
        [dateSetElem "1" "01-03-2024", dateSetElem "1" "05-03-2024"] := rfl
    rw [h1, h2]
    exact List.Perm.swap (dateSetElem "1" "01-03-2024") (dateSetElem "1" "05-03-2024") []
  exact ⟨availability_sorted_and_permutation_invariant.1 distinctDatesDocA _ hA,
    availability_sorted_and_permutation_invariant.2 distinctDatesDocA distinctDatesDocB
      _ _ hperm hA hB (by decide)⟩

theorem digitCharOf_isDigit (n : Nat) : (digitCharOf n).isDigit = true := by
  unfold digitCharOf
  have h : n % 10 < 10 := Nat.mod_lt _ (by omega)
  set k := n % 10 with hk
  interval_cases k <;> rfl

theorem natToCharsAux_isDigit :
    ∀ (fuel n : Nat), ∀ c ∈ natToCharsAux fuel n, c.isDigit = true := by
  intro fuel
  induction fuel with
  | zero => intro n c hc; simp [natToCharsAux] at hc
  | succ f ih =>
    intro n c hc
    simp only [natToCharsAux] at hc
    split at hc
    · simp at hc
      rw [hc]
      exact digitCharOf_isDigit n
    · rcases List.mem_append.mp hc with hc | hc
      · exact ih (n / 10) c hc
      · simp at hc
        rw [hc]
        exact digitCharOf_isDigit (n % 10)

theorem padZero_isDigit (k : Nat) (l : List Char)
    (hl : ∀ c ∈ l, c.isDigit = true) :
    ∀ c ∈ padZero k l, c.isDigit = true := by
  intro c hc
  rcases List.mem_append.mp hc with hc | hc
  · rw [List.eq_of_mem_replicate hc]
    rfl
  · exact hl c hc

theorem isDigit_ne_dash (c : Char) (h : c.isDigit = true) : c ≠ '-' := by
  intro hc
  subst hc
  simp at h

theorem padZero_length_ge (k : Nat) (l : List Char) :
    k ≤ (padZero k l).length := by
  simp [padZero]
  omega

theorem splitDash_no_dash :
    ∀ (l : List Char), (∀ c ∈ l, c ≠ '-') → splitDash l = [l] := by
  intro l
  induction l with
  | nil => intro _; rfl
  | cons c rest ih =>
    intro h
    simp only [splitDash]
    rw [if_neg (h c (by simp))]
    rw [ih (fun c2 hc2 => h c2 (by simp [hc2]))]

theorem splitDash_append :
    ∀ (a rest : List Char), (∀ c ∈ a, c ≠ '-') →
      splitDash (a ++ '-' :: rest) = a :: splitDash rest := by
  intro a
  induction a with
  | nil =>
    intro rest _
    simp [splitDash]
  | cons c t ih =>
    intro rest h
    simp only [List.cons_append, splitDash]
    rw [if_neg (h c (by simp))]
    simp only [List.append_eq]
    rw [ih rest (fun c2 hc2 => h c2 (by simp [hc2]))]

theorem parseDMY_dateIso_none (d : PyDate) : parseDMY (dateIso d) = none := by
  have hy : ∀ c ∈ padZero 4 (natToChars d.year), c.isDigit = true :=
    padZero_isDigit 4 _ (natToCharsAux_isDigit (d.year + 1) d.year)
  have hm : ∀ c ∈ padZero 2 (natToChars d.month), c.isDigit = true :=
    padZero_isDigit 2 _ (natToCharsAux_isDigit (d.month + 1) d.month)
  have hd2 : ∀ c ∈ padZero 2 (natToChars d.day), c.isDigit = true :=
    padZero_isDigit 2 _ (natToCharsAux_isDigit (d.day + 1) d.day)
  have htl : (dateIso d).toList =
      padZero 4 (natToChars d.year) ++ '-' ::
        (padZero 2 (natToChars d.month) ++ '-' :: padZero 2 (natToChars d.day)) := rfl
  have hsplit : splitDash ((dateIso d).toList) =
      [padZero 4 (natToChars d.year), padZero 2 (natToChars d.month),
       padZero 2 (natToChars d.day)] := by
    rw [htl]
    rw [splitDash_append _ _ (fun c hc => isDigit_ne_dash c (hy c hc))]
    rw [splitDash_append _ _ (fun c hc => isDigit_ne_dash c (hm c hc))]
    rw [splitDash_no_dash _ (fun c hc => isDigit_ne_dash c (hd2 c hc))]
  unfold parseDMY
  rw [hsplit]
  dsimp only []
  rw [if_neg]
  intro hcond
  have hlen : (padZero 4 (natToChars d.year)).length ≤ 2 := hcond.2.2.2.2.1
  have hge : 4 ≤ (padZero 4 (natToChars d.year)).length := padZero_length_ge 4 _
  omega

/-- C10: for every valid update-availability call, the text placed in the
request body's Date element is the ISO `YYYY-MM-DD` rendering of the
parsed date — which is never the `DD-MM-YYYY` string the caller supplied
(no ISO rendering even parses as `DD-MM-YYYY`). -/
theorem updateAvailability_sends_iso_date (room resort qty ds : String)
    (rid sid q : Int) (d : PyDate)
    (hr : pyInt room = some rid) (hs : pyInt resort = some sid)
    (hq : pyInt qty = some q) (hd : parseDMY ds = some d) :
    updateAvailabilityRequestDate room resort qty ds = .ok (dateIso d) ∧
    dateIso d ≠ ds := by
  constructor
  · unfold updateAvailabilityRequestDate updateAvailabilityValidate
    simp only [hr, hs, hq, hd]
  · intro heq
    rw [← heq, parseDMY_dateIso_none] at hd
    exact Option.noConfusion hd

/-- Witness for C10: the caller-supplied "10-01-2030" is sent as
"2030-01-10". -/
theorem updateAvailability_sends_iso_date_witness :
    updateAvailabilityRequestDate "1" "2" "3" "10-01-2030" =
      .ok (dateIso ⟨2030, 1, 10⟩) ∧
    dateIso ⟨2030, 1, 10⟩ ≠ "10-01-2030" ∧
    dateIso ⟨2030, 1, 10⟩ = "2030-01-10" :=
  ⟨(updateAvailability_sends_iso_date "1" "2" "3" "10-01-2030" 1 2 3 ⟨2030, 1, 10⟩
      rfl rfl rfl rfl).1,
   (updateAvailability_sends_iso_date "1" "2" "3" "10-01-2030" 1 2 3 ⟨2030, 1, 10⟩
      rfl rfl rfl rfl).2,
   rfl⟩
